import Mathlib

/-!
Verification development for the skopos repository (dnsmon / svcmon).

The repository today contains the configuration loader
(`internal/config/config.go`), the tsnet server wrapper
(`internal/tailscale/server.go`) and the `dnsmon` entry point
(`cmd/dnsmon/dnsmon.go`).  Those are embedded here directly from the Go
source.  The resolver-inventory core (inventory store, health-check state
machine, reconciler, RPC surface) is specified but not yet present in the
source tree; those parts are modelled from the specification and each such
definition says so in its doc comment.
-/

namespace Skopos

/-! ## Configuration (`internal/config/config.go`) -/

/-- Go `time.Duration`: a count of nanoseconds (int64 in Go; the values
appearing here are far from overflow, so we use `Int`). -/
abbrev Duration := Int

/-- One nanosecond, the unit of `Duration`. -/
def nanosecond : Duration := 1

/-- Go `time.Second` in nanoseconds. -/
def second : Duration := 1000000000

/-- The process environment as `config.go` observes it: `os.Getenv` (which
returns `""` for unset variables), the existence check for `/.dockerenv`
performed by `isRunningInContainer`, and `xdg.DataHome`. -/
structure Env where
  vars : String → String
  dockerenvExists : Bool
  xdgDataHome : String

/-- `config.TailscaleConfig`. -/
structure TailscaleConfig where
  authKey : String
  hostname : String
  stateDir : String
deriving Repr, DecidableEq

/-- `config.HealthCheckConfig`. -/
structure HealthCheckConfig where
  interval : Duration
  timeout : Duration
  unhealthyThreshold : Int
deriving Repr, DecidableEq

/-- `config.DNSConfig`. -/
structure DNSConfig where
  updateTimeout : Duration
deriving Repr, DecidableEq

/-- `config.Config`. -/
structure Config where
  tailscale : TailscaleConfig
  healthCheck : HealthCheckConfig
  dns : DNSConfig
  development : Bool
deriving Repr, DecidableEq

/-- Leading decimal digits of a character list, and the rest. -/
def takeDigits : List Char → List Char × List Char
  | [] => ([], [])
  | c :: cs =>
    if c.isDigit then
      let (ds, rest) := takeDigits cs
      (c :: ds, rest)
    else
      ([], c :: cs)

/-- Value of a string of decimal digits. -/
def digitsToNat (ds : List Char) : Nat :=
  ds.foldl (fun a c => a * 10 + (c.toNat - 48)) 0

/-- Nanoseconds per Go duration unit suffix. -/
def unitNanos (u : String) : Option Duration :=
  if u = "ns" then some 1
  else if u = "us" then some 1000
  else if u = "ms" then some 1000000
  else if u = "s" then some second
  else if u = "m" then some (60 * second)
  else if u = "h" then some (3600 * second)
  else none

/-- Models Go's `time.ParseDuration` on the fragment exercised here: a
non-empty run of decimal digits followed by a single unit suffix
(e.g. `"20s"`, `"500ms"`).  Go additionally accepts signs, fractions and
multiple groups (`"1h30m"`); none of the claims depend on those forms, and
every string rejected here that Go would accept is irrelevant to them.
Returns `none` for anything else (in Go: a non-nil error). -/
def parseDuration (s : String) : Option Duration :=
  let cs := s.toList
  let (ds, rest) := takeDigits cs
  if ds = [] then none
  else
    match unitNanos (String.mk rest) with
    | some u => some ((digitsToNat ds : Int) * u)
    | none => none

/-- Models Go's `strconv.Atoi`: an optional sign followed by a non-empty
run of decimal digits (overflow of Go's `int` is ignored; the claims only
involve small values). -/
def atoi (s : String) : Option Int :=
  match s.toList with
  | [] => none
  | '-' :: cs =>
    if cs ≠ [] ∧ cs.all Char.isDigit then some (-(digitsToNat cs : Int)) else none
  | '+' :: cs =>
    if cs ≠ [] ∧ cs.all Char.isDigit then some (digitsToNat cs : Int) else none
  | cs =>
    if cs.all Char.isDigit then some (digitsToNat cs : Int) else none

/-- `config.getEnvOrDefault`. -/
def getEnvOrDefault (e : Env) (key defaultValue : String) : String :=
  if e.vars key ≠ "" then e.vars key else defaultValue

/-- `config.getDurationOrDefault`: parses a duration from an environment
variable, falling back to the default when the variable is unset or does
not parse. -/
def getDurationOrDefault (e : Env) (key : String) (defaultValue : Duration) : Duration :=
  if e.vars key ≠ "" then
    match parseDuration (e.vars key) with
    | some d => d
    | none => defaultValue
  else defaultValue

/-- `config.getIntOrDefault`: parses an integer from an environment
variable, falling back to the default when the variable is unset or does
not parse. -/
def getIntOrDefault (e : Env) (key : String) (defaultValue : Int) : Int :=
  if e.vars key ≠ "" then
    match atoi (e.vars key) with
    | some n => n
    | none => defaultValue
  else defaultValue

/-- `config.isRunningInContainer`. -/
def isRunningInContainer (e : Env) : Bool :=
  if e.dockerenvExists then true
  else if e.vars "container" ≠ "" then true
  else false

/-- `config.determineStateDir`.  In the Go source this returns
`(string, error)` but every path returns a nil error, so it is embedded as
a total function. -/
def determineStateDir (e : Env) (development : Bool) : String :=
  if development then "./tsnet.tmp/"
  else if isRunningInContainer e then "/data"
  else e.xdgDataHome ++ "/skopos/tsnet"

/-- `config.Load`: loads configuration from environment variables with
defaults, and fails only on the validation at the end (empty
`TS_AUTHKEY`). -/
def load (e : Env) : Except String Config :=
  let development := e.vars "DEVEL" = "true"
  let authKey := e.vars "TS_AUTHKEY"
  let hostname := getEnvOrDefault e "TS_HOSTNAME" "skopos-dnsmon"
  let stateDir := getEnvOrDefault e "TS_STATE_DIR" (determineStateDir e development)
  let interval := getDurationOrDefault e "HEALTH_CHECK_INTERVAL" (20 * second)
  let timeout := getDurationOrDefault e "HEALTH_CHECK_TIMEOUT" (5 * second)
  let threshold := getIntOrDefault e "UNHEALTHY_THRESHOLD" 1
  let updateTimeout := getDurationOrDefault e "DNS_UPDATE_TIMEOUT" (10 * second)
  if authKey = "" then Except.error "TS_AUTHKEY is required"
  else
    Except.ok
      { tailscale := { authKey := authKey, hostname := hostname, stateDir := stateDir }
        healthCheck :=
          { interval := interval, timeout := timeout, unhealthyThreshold := threshold }
        dns := { updateTimeout := updateTimeout }
        development := development }

/-- An environment with `TS_AUTHKEY` set, an unparsable
`HEALTH_CHECK_INTERVAL`, and everything else unset. -/
def envBadInterval : Env where
  vars := fun k =>
    if k = "TS_AUTHKEY" then "tskey-test"
    else if k = "HEALTH_CHECK_INTERVAL" then "banana"
    else ""
  dockerenvExists := false
  xdgDataHome := "/home/user/.local/share"

/-- An environment with `TS_AUTHKEY` set, `UNHEALTHY_THRESHOLD` set to the
integer `0`, and everything else unset. -/
def envZeroThreshold : Env where
  vars := fun k =>
    if k = "TS_AUTHKEY" then "tskey-test"
    else if k = "UNHEALTHY_THRESHOLD" then "0"
    else ""
  dockerenvExists := false
  xdgDataHome := "/home/user/.local/share"

/-- An environment with only `TS_AUTHKEY` set. -/
def envOnlyAuthKey : Env where
  vars := fun k => if k = "TS_AUTHKEY" then "tskey-test" else ""
  dockerenvExists := false
  xdgDataHome := "/home/user/.local/share"

/-- The configuration `load` produces for `envOnlyAuthKey`. -/
def cfgDefault : Config where
  tailscale :=
    { authKey := "tskey-test", hostname := "skopos-dnsmon"
      stateDir := "/home/user/.local/share/skopos/tsnet" }
  healthCheck :=
    { interval := 20 * second, timeout := 5 * second, unhealthyThreshold := 1 }
  dns := { updateTimeout := 10 * second }
  development := false

/-- C3 counterexample: with `TS_AUTHKEY` present but
`HEALTH_CHECK_INTERVAL` set to the non-duration string `"banana"`,
`config.Load` succeeds and substitutes the 20-second default, instead of
returning an error as the claim requires. -/
theorem load_invalid_interval_counterexample :
    (load envBadInterval).isOk = true ∧
    (load envBadInterval).toOption.map (fun c => c.healthCheck.interval) =
      some (20 * second) := by
  constructor <;> rfl

/-- C3 (amended): `config.Load` returns an error exactly when the required
`TS_AUTHKEY` is empty; an optional value that is set but invalid (such as
a non-duration `HEALTH_CHECK_INTERVAL`) does not abort startup — the
default is substituted for it. -/
theorem load_error_iff_missing_authkey (e : Env) :
    ((load e).isOk = true ↔ e.vars "TS_AUTHKEY" ≠ "") ∧
    (∀ c, load e = Except.ok c →
      parseDuration (e.vars "HEALTH_CHECK_INTERVAL") = none →
      c.healthCheck.interval = 20 * second) := by
  by_cases ha : e.vars "TS_AUTHKEY" = ""
  · refine ⟨?_, ?_⟩
    · simp [load, ha, Except.isOk, Except.toBool]
    · intro c hc
      simp [load, ha] at hc
  · refine ⟨?_, ?_⟩
    · simp [load, ha, Except.isOk, Except.toBool]
    · intro c hc hparse
      simp [load, ha] at hc
      subst hc
      simp [getDurationOrDefault, hparse]

/-- C3 amended witness at a concrete environment. -/
theorem load_error_iff_missing_authkey_witness :
    ((load envBadInterval).isOk = true ↔ envBadInterval.vars "TS_AUTHKEY" ≠ "") ∧
    (∀ c, load envBadInterval = Except.ok c →
      parseDuration (envBadInterval.vars "HEALTH_CHECK_INTERVAL") = none →
      c.healthCheck.interval = 20 * second) :=
  load_error_iff_missing_authkey envBadInterval

/-- C4 counterexample: with `UNHEALTHY_THRESHOLD=0` (a valid integer below
1) and `TS_AUTHKEY` present, `config.Load` succeeds and returns
`UnhealthyThreshold = 0`, violating the claimed lower bound of 1. -/
theorem load_zero_threshold_counterexample :
    (load envZeroThreshold).toOption.map (fun c => c.healthCheck.unhealthyThreshold) =
      some 0 := by
  rfl

/-- C4 (amended): when `config.Load` succeeds, `UnhealthyThreshold ≥ 1`
holds provided `UNHEALTHY_THRESHOLD`, whenever it parses as an integer,
parses to a value ≥ 1 — in particular when the variable is unset or
unparsable, where the default 1 is used.  `Load` itself never enforces the
lower bound. -/
theorem load_threshold_ge_one (e : Env) (c : Config)
    (hc : load e = Except.ok c)
    (hp : ∀ n, atoi (e.vars "UNHEALTHY_THRESHOLD") = some n → 1 ≤ n) :
    1 ≤ c.healthCheck.unhealthyThreshold := by
  by_cases ha : e.vars "TS_AUTHKEY" = ""
  · simp [load, ha] at hc
  · simp [load, ha] at hc
    subst hc
    simp only [getIntOrDefault]
    split
    · cases hn : atoi (e.vars "UNHEALTHY_THRESHOLD") with
      | none => simp [hn]
      | some n => simp [hn, hp n hn]
    · exact le_refl 1

/-- C4 amended witness: with only `TS_AUTHKEY` set the loaded threshold is
the default 1 ≥ 1. -/
theorem load_threshold_ge_one_witness :
    1 ≤ cfgDefault.healthCheck.unhealthyThreshold :=
  load_threshold_ge_one envOnlyAuthKey cfgDefault (by rfl)
    (fun n h => by simp [envOnlyAuthKey, atoi] at h)

/-- C10: when `TS_AUTHKEY` is non-empty and the optional health-check and
DNS variables are unset, `config.Load` succeeds with defaults
Interval = 20s, Timeout = 5s, UnhealthyThreshold = 1,
DNS.UpdateTimeout = 10s. -/
theorem load_defaults (e : Env)
    (hauth : e.vars "TS_AUTHKEY" ≠ "")
    (h1 : e.vars "HEALTH_CHECK_INTERVAL" = "")
    (h2 : e.vars "HEALTH_CHECK_TIMEOUT" = "")
    (h3 : e.vars "UNHEALTHY_THRESHOLD" = "")
    (h4 : e.vars "DNS_UPDATE_TIMEOUT" = "") :
    (load e).toOption.map
      (fun c => (c.healthCheck.interval, c.healthCheck.timeout,
        c.healthCheck.unhealthyThreshold, c.dns.updateTimeout)) =
      some (20 * second, 5 * second, 1, 10 * second) := by
  simp [load, getDurationOrDefault, getIntOrDefault, hauth, h1, h2, h3, h4]
  exact ⟨_, rfl, rfl, rfl, rfl, rfl⟩

/-- C10 witness at a concrete environment with only `TS_AUTHKEY` set. -/
theorem load_defaults_witness :
    (load envOnlyAuthKey).toOption.map
      (fun c => (c.healthCheck.interval, c.healthCheck.timeout,
        c.healthCheck.unhealthyThreshold, c.dns.updateTimeout)) =
      some (20 * second, 5 * second, 1, 10 * second) :=
  load_defaults envOnlyAuthKey (by decide) rfl rfl rfl rfl

/-! ## Tailscale server wrapper (`internal/tailscale/server.go`)

The tsnet server, logger and filesystem are external; what is embedded is
the `Server` struct's observable state (`started`, `localClient`,
`tailscaleIP`/`tailscaleIPv6`) and the control flow of `New`, `Start` and
`Close`.  External call results (local-client acquisition, status polls,
context cancellation, the underlying close) are inputs to the embedded
functions. -/

/-- One address from `status.Self.TailscaleIPs`: the `Is4`/`Is6` tests and
its string form. -/
structure TSAddr where
  is4 : Bool
  is6 : Bool
  text : String
deriving Repr, DecidableEq

/-- The part of `ipnstate.Status` the wrapper reads: `BackendState`, and
`Self.TailscaleIPs` (`none` models `Self == nil`). -/
structure TSStatus where
  backendState : String
  selfIPs : Option (List TSAddr)
deriving Repr, DecidableEq

/-- The observable state of `tailscale.Server`.  The local client is
abstracted to an identifier (`none` until one is installed by `New`). -/
structure Server where
  hostname : String
  stateDir : String
  localClient : Option Nat
  started : Bool
  tailscaleIP : String
  tailscaleIPv6 : String
deriving Repr, DecidableEq

/-- One iteration of `Start`'s polling loop: whether `ctx.Done()` fires in
the `select`, and the result of the `StatusWithoutPeers` call otherwise. -/
structure PollStep where
  ctxDone : Bool
  status : Except String TSStatus
deriving Repr

/-- The external events `Start` consumes: the `LocalClient()` result, the
first `StatusWithoutPeers` result, and the subsequent poll iterations.  A
run whose poll list is exhausted before the loop resolves corresponds to a
Go execution still inside the loop (no return value). -/
structure StartEnv where
  lc : Except String Nat
  firstStatus : Except String TSStatus
  polls : List PollStep
deriving Repr

/-- `tailscale.New`: fails when `os.MkdirAll` on the state directory fails
(the `mkdirOk` input), otherwise builds a not-yet-started server with a
fresh empty local client. -/
def tsnetNew (hostname stateDir : String) (mkdirOk : Bool) : Except String Server :=
  if mkdirOk then
    Except.ok
      { hostname := hostname, stateDir := stateDir, localClient := some 0
        started := false, tailscaleIP := "", tailscaleIPv6 := "" }
  else Except.error "failed to create state directory"

/-- The `for status.BackendState != ipn.Running` loop in `Start`: exits
with the final status on `Running`, with an error on context cancellation
or a failed status call, and `none` when the supplied poll trace ends
before the loop resolves (the Go loop is still running). -/
def waitRunning : TSStatus → List PollStep → Option (Except String TSStatus)
  | st, polls =>
    if st.backendState = "Running" then some (Except.ok st)
    else
      match polls with
      | [] => none
      | p :: rest =>
        if p.ctxDone then some (Except.error "context canceled")
        else
          match p.status with
          | Except.error e => some (Except.error ("failed to get status: " ++ e))
          | Except.ok st2 => waitRunning st2 rest

/-- The IP-assignment loop at the end of `Start`: the last IPv4 address
wins `tailscaleIP`, the last IPv6 address wins `tailscaleIPv6`. -/
def assignAddrs (s : Server) (ips : List TSAddr) : Server :=
  ips.foldl
    (fun acc ip =>
      if ip.is4 then { acc with tailscaleIP := ip.text }
      else if ip.is6 then { acc with tailscaleIPv6 := ip.text }
      else acc)
    s

/-- The `status.Self != nil && len(status.Self.TailscaleIPs) > 0` guard
around the IP-assignment loop. -/
def applySelfAddrs (s : Server) (st : TSStatus) : Server :=
  match st.selfIPs with
  | some ips => if ips ≠ [] then assignAddrs s ips else s
  | none => s

/-- `tailscale.Server.Start`: rejects an already-started server, installs
the local client, polls status until the backend is `Running`, records the
node's addresses and only then sets `started`.  `none` means the Go call
has not returned within the supplied trace. -/
def start (s : Server) (env : StartEnv) : Option (Except String Unit × Server) :=
  if s.started then some (Except.error "server already started", s)
  else
    match env.lc with
    | Except.error e => some (Except.error ("failed to get local client: " ++ e), s)
    | Except.ok lc =>
      let s1 := { s with localClient := some lc }
      match env.firstStatus with
      | Except.error e => some (Except.error ("failed to get status: " ++ e), s1)
      | Except.ok st0 =>
        match waitRunning st0 env.polls with
        | none => none
        | some (Except.error e) => some (Except.error e, s1)
        | some (Except.ok final) =>
          let s2 := applySelfAddrs s1 final
          some (Except.ok (), { s2 with started := true })

/-- `tailscale.Server.Close`: a never-started (or already-closed) server
returns nil immediately; otherwise the underlying tsnet server is closed
(`closeOk` is that call's outcome) and `started` is cleared only on
success.  The third component records whether the underlying tsnet server
was touched. -/
def close (s : Server) (closeOk : Bool) : Except String Unit × Server × Bool :=
  if s.started = false then (Except.ok (), s, false)
  else if closeOk then (Except.ok (), { s with started := false }, true)
  else (Except.error "failed to close tsnet server", s, true)

/-- A freshly created, not-yet-started server. -/
def server0 : Server :=
  { hostname := "skopos-dnsmon", stateDir := "/data", localClient := some 0
    started := false, tailscaleIP := "", tailscaleIPv6 := "" }

/-- A trace in which the first status call already reports `Running` with
one IPv4 self address. -/
def startEnv0 : StartEnv :=
  { lc := Except.ok 1
    firstStatus :=
      Except.ok { backendState := "Running", selfIPs := some [⟨true, false, "100.64.0.1"⟩] }
    polls := [] }

/-- The server `start server0 startEnv0` produces. -/
def server0Started : Server :=
  { hostname := "skopos-dnsmon", stateDir := "/data", localClient := some 1
    started := true, tailscaleIP := "100.64.0.1", tailscaleIPv6 := "" }

/-- A started server, as `Close` would first see it. -/
def server1 : Server :=
  { hostname := "skopos-dnsmon", stateDir := "/data", localClient := some 1
    started := true, tailscaleIP := "100.64.0.1", tailscaleIPv6 := "" }

/-- C8: on a server already started, `Start` errors without changing the
state; starting from a stopped server, every terminating run leaves
`started = false` on the error paths and sets `started = true` exactly
when `Start` returns nil. -/
theorem start_started_flag (s : Server) (env : StartEnv) (r : Except String Unit)
    (s2 : Server) (h : start s env = some (r, s2)) :
    (s.started = true → (∃ e, r = Except.error e) ∧ s2 = s) ∧
    (s.started = false → ((r = Except.ok ()) ↔ s2.started = true)) := by
  unfold start at h
  by_cases hs : s.started
  · simp [hs] at h
    refine ⟨fun _ => ⟨⟨"server already started", h.1.symm⟩, h.2.symm⟩, fun hf => ?_⟩
    rw [hf] at hs
    cases hs
  · simp [hs] at h
    refine ⟨fun ht => absurd ht (by simp [hs]), fun _ => ?_⟩
    cases hlc : env.lc with
    | error e =>
      rw [hlc] at h
      simp at h
      constructor
      · intro hr; rw [← h.1] at hr; cases hr
      · intro hst; rw [← h.2] at hst; simp [hs] at hst
    | ok lc =>
      rw [hlc] at h
      simp at h
      cases hfs : env.firstStatus with
      | error e =>
        rw [hfs] at h
        simp at h
        constructor
        · intro hr; rw [← h.1] at hr; cases hr
        · intro hst; rw [← h.2] at hst; simp [hs] at hst
      | ok st0 =>
        rw [hfs] at h
        simp at h
        cases hwr : waitRunning st0 env.polls with
        | none => rw [hwr] at h; cases h
        | some res =>
          rw [hwr] at h
          cases res with
          | error e =>
            simp at h
            constructor
            · intro hr; rw [← h.1] at hr; cases hr
            · intro hst; rw [← h.2] at hst; simp [hs] at hst
          | ok final =>
            simp at h
            constructor
            · intro _; rw [← h.2]
            · intro _; exact h.1.symm

/-- C8 witness: a concrete stopped server and a trace that reaches
`Running` immediately; `Start` returns nil and the flag is set. -/
theorem start_started_flag_witness :
    (Except.ok () : Except String Unit) = Except.ok () ↔ server0Started.started = true :=
  (start_started_flag server0 startEnv0 (Except.ok ()) server0Started (by rfl)).2 (by rfl)

/-- C9: `Close` on a never-started or already-closed server returns nil
without touching the underlying tsnet server; a successful `Close` leaves
`started = false`, so a second `Close` is a no-op returning nil. -/
theorem close_idempotent (s : Server) (ok1 ok2 : Bool) :
    (s.started = false → close s ok1 = (Except.ok (), s, false)) ∧
    (close s true).2.1.started = false ∧
    ((close s ok1).1 = Except.ok () →
      close (close s ok1).2.1 ok2 = (Except.ok (), (close s ok1).2.1, false)) := by
  by_cases hs : s.started
  · cases ok1 <;> simp [close, hs]
  · simp [close, hs]

/-- C9 witness: closing a started server succeeds and the second close is
a no-op returning nil. -/
theorem close_idempotent_witness :
    close (close server1 true).2.1 true = (Except.ok (), (close server1 true).2.1, false) :=
  (close_idempotent server1 true true).2.2 (by rfl)

/-! ## dnsmon entry point (`cmd/dnsmon/dnsmon.go`) -/

/-- Everything external that one run of `main` consumes: the process
environment, the `MkdirAll` outcome inside `tailscale.New`, the trace
driving `Start`, whether a termination signal eventually arrives, and the
outcome of the final `Close`. -/
structure MainEnv where
  env : Env
  mkdirOk : Bool
  startEnv : StartEnv
  signalArrives : Bool
  closeOk : Bool

/-- `main` of `cmd/dnsmon`: exit code 5 when configuration loading fails,
when `tailscale.New` fails, or when `Start` fails; after a successful
start it waits for a termination signal, closes the server (a close error
is only logged) and returns normally — exit code 0.  `none` models a run
that never returns (no signal, or `Start` stuck in its poll loop). -/
def mainRun (m : MainEnv) : Option Nat :=
  match load m.env with
  | Except.error _ => some 5
  | Except.ok cfg =>
    match tsnetNew cfg.tailscale.hostname cfg.tailscale.stateDir m.mkdirOk with
    | Except.error _ => some 5
    | Except.ok ts =>
      match start ts m.startEnv with
      | none => none
      | some (Except.error _, _) => some 5
      | some (Except.ok _, ts2) =>
        if m.signalArrives then
          let _ := close ts2 m.closeOk
          some 0
        else none

/-- Startup succeeded: configuration loaded, the server was created, and
`Start` returned nil. -/
def startupSucceeds (m : MainEnv) : Prop :=
  ∃ cfg ts s2, load m.env = Except.ok cfg ∧
    tsnetNew cfg.tailscale.hostname cfg.tailscale.stateDir m.mkdirOk = Except.ok ts ∧
    start ts m.startEnv = some (Except.ok (), s2)

/-- C7: every exit of `dnsmon` is clean (code 0) exactly when startup —
configuration loading, server creation, `Start` — succeeded, and is the
non-zero code 5 on every startup failure. -/
theorem mainRun_exit_codes (m : MainEnv) (c : Nat) (h : mainRun m = some c) :
    (c = 0 ↔ startupSucceeds m) ∧ (c = 0 ∨ c = 5) := by
  unfold mainRun at h
  split at h
  next e hl =>
    injection h with h
    subst h
    refine ⟨⟨fun h0 => absurd h0 (by decide), fun hsu => ?_⟩, Or.inr rfl⟩
    exfalso
    obtain ⟨cfg, ts, s2, hcfg, _, _⟩ := hsu
    rw [hl] at hcfg
    cases hcfg
  next cfg hl =>
    split at h
    next e hn =>
      injection h with h
      subst h
      refine ⟨⟨fun h0 => absurd h0 (by decide), fun hsu => ?_⟩, Or.inr rfl⟩
      exfalso
      obtain ⟨cfg2, ts, s2, hcfg, hts, _⟩ := hsu
      rw [hl] at hcfg
      injection hcfg with hcfg
      subst hcfg
      rw [hn] at hts
      cases hts
    next ts hn =>
      split at h
      next hst => cases h
      next e ts2 hst =>
        injection h with h
        subst h
        refine ⟨⟨fun h0 => absurd h0 (by decide), fun hsu => ?_⟩, Or.inr rfl⟩
        exfalso
        obtain ⟨cfg2, ts3, s2, hcfg, hts, hs2⟩ := hsu
        rw [hl] at hcfg
        injection hcfg with hcfg
        subst hcfg
        rw [hn] at hts
        injection hts with hts
        subst hts
        rw [hst] at hs2
        cases hs2
      next u ts2 hst =>
        cases u
        split at h
        next hsig =>
          injection h with h
          subst h
          exact ⟨⟨fun _ => ⟨cfg, ts, ts2, hl, hn, hst⟩, fun _ => rfl⟩, Or.inl rfl⟩
        next hsig => cases h

/-- C7 witness: a run with valid configuration, successful creation and
start, and an eventual termination signal exits with code 0, and startup
indeed succeeded there. -/
theorem mainRun_exit_codes_witness :
    startupSucceeds
      { env := envOnlyAuthKey, mkdirOk := true, startEnv := startEnv0
        signalArrives := true, closeOk := true } :=
  (mainRun_exit_codes
      { env := envOnlyAuthKey, mkdirOk := true, startEnv := startEnv0
        signalArrives := true, closeOk := true }
      0 (by rfl)).1.mp rfl

/-! ## Resolver inventory core

The inventory store, health-check state machine, reconciler and RPC
surface are specified (spec sections 3, 4.1–4.4) but not yet present in
the source tree; every definition in this section is modelled from the
specification's words. -/

/-- Modelled from the spec: `ResolverNode.status`, one of
`Unknown | Healthy | Unhealthy | Removed`. -/
inductive Status where
  | unknown
  | healthy
  | unhealthy
  | removed
deriving Repr, DecidableEq

/-- Modelled from the spec: `ResolverNode` (the `lastCheckedAt` timestamp
and `source` tag play no role in any claim and are omitted). -/
structure Node where
  id : String
  hostname : String
  ipv4 : String
  ipv6 : String
  status : Status
  consecutiveFailures : Nat
deriving Repr, DecidableEq

/-- Modelled from the spec: the inventory, a mapping from `id` to
`ResolverNode`, represented as a list of nodes keyed by `id`. -/
abbrev Inventory := List Node

/-- Boolean string-list membership. -/
def memb (x : String) (l : List String) : Bool :=
  l.any fun y => decide (y = x)

/-- Find the node with the given id. -/
def lookupNode (inv : Inventory) (id : String) : Option Node :=
  inv.find? fun n => decide (n.id = id)

/-- The ids present in the inventory. -/
def invIds (inv : Inventory) : List String :=
  inv.map fun n => n.id

/-- Every node of the inventory has status `Unknown`. -/
def allUnknown (inv : Inventory) : Prop :=
  ∀ n ∈ inv, n.status = Status.unknown

/-- Modelled from the spec: `RecordCheck`'s per-node health state machine.
On success the node becomes `Healthy` and the failure count resets; on
failure the count increments, and a `Healthy` node whose count reaches
`UnhealthyThreshold` becomes `Unhealthy`.  `Removed` is terminal and
absorbing.  The second component reports whether a status transition
occurred. -/
def recordCheck (threshold : Nat) (n : Node) (success : Bool) : Node × Bool :=
  if n.status = Status.removed then (n, false)
  else if success then
    ({ n with status := Status.healthy, consecutiveFailures := 0 },
      if n.status = Status.healthy then false else true)
  else
    let f := n.consecutiveFailures + 1
    if n.status = Status.healthy ∧ f = threshold then
      ({ n with status := Status.unhealthy, consecutiveFailures := f }, true)
    else
      ({ n with consecutiveFailures := f }, false)

/-- `k` consecutive failed probes fed into `recordCheck`. -/
def runFailures (threshold : Nat) (n : Node) : Nat → Node
  | 0 => n
  | k + 1 => (recordCheck threshold (runFailures threshold n k) false).1

/-- Modelled from the spec: `Upsert` — inserts a new node (status
`Unknown`, zero failures) or updates the addressing fields of an existing
one, never regressing `status` or `consecutiveFailures`. -/
def upsert (inv : Inventory) (id hostname ipv4 ipv6 : String) : Inventory :=
  match lookupNode inv id with
  | some _ =>
    inv.map fun n =>
      if n.id = id then { n with hostname := hostname, ipv4 := ipv4, ipv6 := ipv6 } else n
  | none =>
    inv ++ [{ id := id, hostname := hostname, ipv4 := ipv4, ipv6 := ipv6
              status := Status.unknown, consecutiveFailures := 0 }]

/-- Modelled from the spec: `MarkRemoved(id)` — sets the node's status to
`Removed`; a non-existent or already-removed id is a no-op; the call
always succeeds. -/
def markRemoved (inv : Inventory) (id : String) : Inventory :=
  inv.map fun n => if n.id = id then { n with status := Status.removed } else n

/-- Modelled from the spec: the desired DNS resolver set — the address of
every `Healthy` node. -/
def desired (inv : Inventory) : List String :=
  (inv.filter fun n => decide (n.status = Status.healthy)).map fun n => n.ipv4

/-- Two address lists denote the same set of addresses. -/
def sameSet (a b : List String) : Bool :=
  (a.all fun x => memb x b) && (b.all fun x => memb x a)

/-- Modelled from the spec: one reconciliation run against an
always-available Tailnet adapter.  It recomputes the desired set from the
inventory, reads the live set, writes the desired set when the two differ
as sets (the `wrote` flag), and purges every node that is `Removed` and
excluded from the resulting live configuration.  Returns the new
inventory, the new live set, the `wrote` flag, and the purged ids. -/
def reconcile (inv : Inventory) (live : List String) :
    Inventory × List String × Bool × List String :=
  let d := desired inv
  let newLive := if sameSet d live then live else d
  let doomed := fun (n : Node) => decide (n.status = Status.removed) && !memb n.ipv4 newLive
  (inv.filter fun n => !doomed n, newLive, !sameSet d live,
    (inv.filter doomed).map fun n => n.id)

/-- Modelled from the spec: the system state the RPC server mutates — the
inventory plus the live DNS resolver set held by the Tailnet adapter. -/
structure SysState where
  inv : Inventory
  live : List String
deriving Repr, DecidableEq

/-- Modelled from the spec: RPC `AddNode` — `Upsert`, then trigger
reconciliation; returns success. -/
def addNode (st : SysState) (id hostname ipv4 ipv6 : String) : SysState × Bool :=
  let inv1 := upsert st.inv id hostname ipv4 ipv6
  let r := reconcile inv1 st.live
  ({ inv := r.1, live := r.2.1 }, true)

/-- Modelled from the spec: RPC `RemoveNode` — `MarkRemoved`, then trigger
reconciliation; returns success together with the ids the triggered
reconciliation purged. -/
def removeNode (st : SysState) (id : String) : SysState × Bool × List String :=
  let inv1 := markRemoved st.inv id
  let r := reconcile inv1 st.live
  ({ inv := r.1, live := r.2.1 }, true, r.2.2.2)

/-- An RPC inventory mutation. -/
inductive RpcOp where
  | add (id hostname ipv4 ipv6 : String)
  | remove (id : String)

/-- Apply a sequence of RPC calls in arrival order. -/
def applyOps (st : SysState) : List RpcOp → SysState
  | [] => st
  | RpcOp.add id h v4 v6 :: rest => applyOps (addNode st id h v4 v6).1 rest
  | RpcOp.remove id :: rest => applyOps (removeNode st id).1 rest

/-- Idempotent set insert (appends on first occurrence). -/
def setInsert (s : List String) (id : String) : List String :=
  if memb id s then s else s ++ [id]

/-- Idempotent set delete. -/
def setErase (s : List String) (id : String) : List String :=
  s.filter fun x => !decide (x = id)

/-- The reference semantics of C5: fold idempotent set-insert/set-delete
over the call sequence in arrival order. -/
def applySetOps (s : List String) : List RpcOp → List String
  | [] => s
  | RpcOp.add id _ _ _ :: rest => applySetOps (setInsert s id) rest
  | RpcOp.remove id :: rest => applySetOps (setErase s id) rest

/-- Node A of the spec's Scenario A, healthy with no recorded failures. -/
def nodeA : Node :=
  { id := "A", hostname := "resolver-a", ipv4 := "100.64.0.10", ipv6 := "fd7a::10"
    status := Status.healthy, consecutiveFailures := 0 }

theorem memb_iff (x : String) (l : List String) : memb x l = true ↔ x ∈ l := by
  simp [memb, List.any_eq_true]

/-- After `k` consecutive failures from a healthy node with a zero failure
count, the status is `Healthy` strictly below the threshold and
`Unhealthy` from the threshold on, and the failure count equals `k`. -/
theorem runFailures_status (t : Nat) (ht : 1 ≤ t) (n : Node)
    (hs : n.status = Status.healthy) (hf : n.consecutiveFailures = 0) :
    ∀ k, ((runFailures t n k).status =
        if k < t then Status.healthy else Status.unhealthy) ∧
      (runFailures t n k).consecutiveFailures = k := by
  intro k
  induction k with
  | zero =>
    constructor
    · simp [runFailures, hs, show 0 < t by omega]
    · simpa [runFailures] using hf
  | succ k ih =>
    obtain ⟨ihs, ihf⟩ := ih
    simp only [runFailures, recordCheck]
    by_cases hk : k < t
    · rw [if_pos hk] at ihs
      by_cases hkt : k + 1 = t
      · simp [ihs, ihf, hkt, show ¬ t < t by omega]
      · simp [ihs, ihf, hkt, show k + 1 < t by omega]
    · rw [if_neg hk] at ihs
      simp [ihs, ihf, show ¬ k + 1 < t by omega, show ¬ k + 1 = t by omega]

/-- C1: from a `Healthy` node with a zero failure count, consecutive
failed probes fed into `RecordCheck` transition the node to `Unhealthy`
exactly once, exactly at the `UnhealthyThreshold`-th consecutive failure;
a single success transitions an `Unhealthy` node back to `Healthy`; and
the boolean `RecordCheck` returns reports exactly whether a status
transition occurred. -/
theorem recordCheck_state_machine (t : Nat) (n : Node) (k : Nat)
    (ht : 1 ≤ t) (hs : n.status = Status.healthy) (hf : n.consecutiveFailures = 0) :
    ((runFailures t n k).status =
      if k < t then Status.healthy else Status.unhealthy) ∧
    ((recordCheck t (runFailures t n k) false).2 = decide (k + 1 = t)) ∧
    (∀ m : Node, m.status = Status.unhealthy →
      recordCheck t m true =
        ({ m with status := Status.healthy, consecutiveFailures := 0 }, true)) ∧
    (∀ (m : Node) (b : Bool),
      (recordCheck t m b).2 = decide ((recordCheck t m b).1.status ≠ m.status)) := by
  obtain ⟨hks, hkf⟩ := runFailures_status t ht n hs hf k
  refine ⟨hks, ?_, ?_, ?_⟩
  · by_cases hk : k < t
    · rw [if_pos hk] at hks
      by_cases hkt : k + 1 = t
      · simp [recordCheck, hks, hkf, hkt]
      · simp [recordCheck, hks, hkf, hkt]
    · rw [if_neg hk] at hks
      simp [recordCheck, hks, hkf, show ¬ k + 1 = t by omega]
  · intro m hm
    simp [recordCheck, hm]
  · intro m b
    by_cases hr : m.status = Status.removed
    · simp [recordCheck, hr]
    · cases b with
      | true =>
        by_cases hh : m.status = Status.healthy
        · simp [recordCheck, hr, hh]
        · simp [recordCheck, hr, hh, Ne.symm hh]
      | false =>
        by_cases hc : m.status = Status.healthy ∧ m.consecutiveFailures + 1 = t
        · simp [recordCheck, hr, hc, hc.1]
        · simp [recordCheck, hr, hc]

/-- C1 witness: with threshold 3 and node A healthy, the third failure is
the transition (the flag fires at failure 3) and the status after three
failures is `Unhealthy`. -/
theorem recordCheck_state_machine_witness :
    (runFailures 3 nodeA 3).status = Status.unhealthy ∧
    (recordCheck 3 (runFailures 3 nodeA 2) false).2 = true := by
  have h3 := (recordCheck_state_machine 3 nodeA 3 (by decide) rfl rfl).1
  have h2 := (recordCheck_state_machine 3 nodeA 2 (by decide) rfl rfl).2.1
  exact ⟨by simpa using h3, by simpa using h2⟩

theorem sameSet_refl (a : List String) : sameSet a a = true := by
  simp only [sameSet, Bool.and_eq_true, List.all_eq_true]
  exact ⟨fun x hx => (memb_iff x a).mpr hx, fun x hx => (memb_iff x a).mpr hx⟩

/-- Membership transfers across `sameSet` lists. -/
theorem sameSet_memb (a b : List String) (h : sameSet a b = true) (x : String)
    (hx : memb x b = true) : memb x a = true := by
  simp only [sameSet, Bool.and_eq_true, List.all_eq_true] at h
  exact h.2 x ((memb_iff x b).mp hx)

/-- The new live set a reconciliation run leaves behind. -/
theorem reconcile_live (inv : Inventory) (live : List String) :
    (reconcile inv live).2.1 =
      if sameSet (desired inv) live then live else desired inv := rfl

/-- The write flag of a reconciliation run. -/
theorem reconcile_wrote (inv : Inventory) (live : List String) :
    (reconcile inv live).2.2.1 = !sameSet (desired inv) live := rfl

/-- The inventory a reconciliation run leaves behind. -/
theorem reconcile_inv (inv : Inventory) (live : List String) :
    (reconcile inv live).1 =
      inv.filter fun n =>
        !(decide (n.status = Status.removed) &&
          !memb n.ipv4 (if sameSet (desired inv) live then live else desired inv)) := rfl

/-- Filtering away only non-`Healthy` nodes does not change the desired
set. -/
theorem desired_filter (inv : Inventory) (p : Node → Bool)
    (hp : ∀ n, n.status = Status.healthy → p n = true) :
    desired (inv.filter p) = desired inv := by
  induction inv with
  | nil => rfl
  | cons n rest ih =>
    by_cases hpn : p n = true
    · by_cases hn : n.status = Status.healthy <;>
        simp [desired, List.filter_cons, hpn, hn] <;>
        simpa [desired] using ih
    · have hn : ¬ n.status = Status.healthy := fun h => hpn (hp n h)
      simp only [List.filter_cons, if_neg hpn]
      rw [ih]
      simp [desired, List.filter_cons, hn]

/-- Purging never changes the desired set. -/
theorem desired_reconcile (inv : Inventory) (live : List String) :
    desired (reconcile inv live).1 = desired inv := by
  rw [reconcile_inv]
  apply desired_filter
  intro n hn
  simp [hn]

/-- C2: with the inventory left untouched between runs, the second
reconciliation run after a successful first one issues zero writes through
the Tailnet adapter. -/
theorem reconcile_second_run_no_write (inv : Inventory) (live : List String) :
    (reconcile (reconcile inv live).1 (reconcile inv live).2.1).2.2.1 = false := by
  rw [reconcile_wrote, desired_reconcile, reconcile_live]
  by_cases hss : sameSet (desired inv) live = true
  · simp [hss]
  · simp [hss, sameSet_refl]

theorem lookupNode_isSome_iff (inv : Inventory) (id : String) :
    (lookupNode inv id).isSome = true ↔ memb id (invIds inv) = true := by
  simp [lookupNode, List.find?_isSome, memb, invIds, List.any_eq_true]

theorem lookupNode_none_iff (inv : Inventory) (id : String) :
    lookupNode inv id = none ↔ memb id (invIds inv) = false := by
  rw [← Option.not_isSome_iff_eq_none]
  rw [show (¬(lookupNode inv id).isSome = true ↔ memb id (invIds inv) = false) from ?_]
  constructor
  · intro h
    cases hm : memb id (invIds inv)
    · rfl
    · exact absurd ((lookupNode_isSome_iff inv id).mpr hm) h
  · intro h hs
    rw [(lookupNode_isSome_iff inv id).mp hs] at h
    cases h

/-- Mapping a function that keeps each node's id keeps the id list. -/
theorem invIds_map (inv : Inventory) (f : Node → Node) (hf : ∀ n, (f n).id = n.id) :
    invIds (inv.map f) = invIds inv := by
  simp only [invIds, List.map_map]
  exact List.map_congr_left fun n _ => hf n

theorem allUnknown_upsert (inv : Inventory) (id h v4 v6 : String) (hu : allUnknown inv) :
    allUnknown (upsert inv id h v4 v6) := by
  unfold upsert
  cases hl : lookupNode inv id with
  | some n =>
    intro m hm
    simp only [List.mem_map] at hm
    obtain ⟨n0, hn0, rfl⟩ := hm
    by_cases hid : n0.id = id <;> simp [hid, hu n0 hn0]
  | none =>
    intro m hm
    rcases List.mem_append.mp hm with h1 | h2
    · exact hu m h1
    · rw [List.mem_singleton] at h2
      subst h2
      rfl

/-- On an all-`Unknown` inventory a reconciliation run purges nothing. -/
theorem reconcile_allUnknown_inv (inv : Inventory) (live : List String)
    (hu : allUnknown inv) : (reconcile inv live).1 = inv := by
  rw [reconcile_inv]
  rw [List.filter_eq_self.mpr]
  intro n hn
  simp [hu n hn]

theorem addNode_ids (inv : Inventory) (live : List String) (id h v4 v6 : String)
    (hu : allUnknown inv) :
    invIds ((addNode ⟨inv, live⟩ id h v4 v6).1).inv = setInsert (invIds inv) id ∧
    allUnknown ((addNode ⟨inv, live⟩ id h v4 v6).1).inv := by
  have hu1 : allUnknown (upsert inv id h v4 v6) := allUnknown_upsert inv id h v4 v6 hu
  have hrec : (reconcile (upsert inv id h v4 v6) live).1 = upsert inv id h v4 v6 :=
    reconcile_allUnknown_inv _ _ hu1
  refine ⟨?_, ?_⟩
  · show invIds (reconcile (upsert inv id h v4 v6) live).1 = _
    rw [hrec]
    unfold upsert
    cases hl : lookupNode inv id with
    | some n =>
      have hm : memb id (invIds inv) = true :=
        (lookupNode_isSome_iff inv id).mp (by rw [hl]; rfl)
      rw [setInsert, if_pos hm]
      exact invIds_map inv _ fun n0 => by by_cases hid : n0.id = id <;> simp [hid]
    | none =>
      have hm : memb id (invIds inv) = false := (lookupNode_none_iff inv id).mp hl
      rw [setInsert, if_neg (by rw [hm]; exact Bool.false_ne_true)]
      simp [invIds]
  · show allUnknown (reconcile (upsert inv id h v4 v6) live).1
    rw [hrec]
    exact hu1

theorem markRemoved_not_healthy (inv : Inventory) (id : String) (hu : allUnknown inv) :
    ∀ n ∈ markRemoved inv id, n.status ≠ Status.healthy := by
  intro m hm
  simp only [markRemoved, List.mem_map] at hm
  obtain ⟨n0, hn0, rfl⟩ := hm
  by_cases hid : n0.id = id <;> simp [hid, hu n0 hn0]

theorem desired_eq_nil (inv : Inventory) (h : ∀ n ∈ inv, n.status ≠ Status.healthy) :
    desired inv = [] := by
  simp only [desired]
  rw [List.filter_eq_nil_iff.mpr]
  · rfl
  · intro n hn
    simpa using h n hn

theorem sameSet_nil_right (live : List String) (h : sameSet [] live = true) :
    live = [] := by
  cases live with
  | nil => rfl
  | cons x xs => simp [sameSet, memb] at h

/-- When no node is healthy, the live set after a reconciliation run is
empty, and the run purges exactly the `Removed` nodes. -/
theorem reconcile_inv_no_healthy (inv : Inventory) (live : List String)
    (h : ∀ n ∈ inv, n.status ≠ Status.healthy) :
    (reconcile inv live).1 = inv.filter fun n => !decide (n.status = Status.removed) := by
  rw [reconcile_inv]
  have hlive0 : (if sameSet (desired inv) live then live else desired inv) = [] := by
    rw [desired_eq_nil inv h]
    by_cases hss : sameSet [] live = true
    · rw [if_pos hss, sameSet_nil_right live hss]
    · rw [if_neg hss]
  simp only [hlive0, memb, List.any_nil, Bool.not_false, Bool.and_true]

theorem markRemoved_filter_ids (inv : Inventory) (id : String) (hu : allUnknown inv) :
    invIds ((markRemoved inv id).filter fun n => !decide (n.status = Status.removed)) =
      setErase (invIds inv) id := by
  induction inv with
  | nil => rfl
  | cons n rest ih =>
    have hn : n.status = Status.unknown := hu n (List.mem_cons_self n rest)
    have hrest : allUnknown rest := fun m hm => hu m (List.mem_cons_of_mem _ hm)
    by_cases hid : n.id = id <;>
      simp [markRemoved, invIds, setErase, List.filter_cons, hid, hn, ih hrest] <;>
      simpa [markRemoved, invIds, setErase] using ih hrest

theorem markRemoved_filter_allUnknown (inv : Inventory) (id : String)
    (hu : allUnknown inv) :
    allUnknown ((markRemoved inv id).filter fun n => !decide (n.status = Status.removed)) := by
  intro m hm
  rw [List.mem_filter] at hm
  obtain ⟨hm1, hm2⟩ := hm
  simp only [markRemoved, List.mem_map] at hm1
  obtain ⟨n0, hn0, hmf⟩ := hm1
  by_cases hid : n0.id = id
  · rw [if_pos hid] at hmf
    rw [← hmf] at hm2
    simp at hm2
  · rw [if_neg hid] at hmf
    rw [← hmf]
    exact hu n0 hn0

theorem removeNode_ids (inv : Inventory) (live : List String) (id : String)
    (hu : allUnknown inv) :
    invIds ((removeNode ⟨inv, live⟩ id).1).inv = setErase (invIds inv) id ∧
    allUnknown ((removeNode ⟨inv, live⟩ id).1).inv := by
  have hnh := markRemoved_not_healthy inv id hu
  have hrec := reconcile_inv_no_healthy (markRemoved inv id) live hnh
  constructor
  · show invIds (reconcile (markRemoved inv id) live).1 = _
    rw [hrec]
    exact markRemoved_filter_ids inv id hu
  · show allUnknown (reconcile (markRemoved inv id) live).1
    rw [hrec]
    exact markRemoved_filter_allUnknown inv id hu

/-- Folding RPC calls over an all-`Unknown` inventory tracks the
set-insert/set-delete fold on ids and preserves the invariant. -/
theorem applyOps_ids (ops : List RpcOp) :
    ∀ inv live, allUnknown inv →
      invIds (applyOps ⟨inv, live⟩ ops).inv = applySetOps (invIds inv) ops ∧
      allUnknown (applyOps ⟨inv, live⟩ ops).inv := by
  induction ops with
  | nil => exact fun inv live hu => ⟨rfl, hu⟩
  | cons op rest ih =>
    intro inv live hu
    cases op with
    | add id h v4 v6 =>
      obtain ⟨h1, h2⟩ := addNode_ids inv live id h v4 v6 hu
      obtain ⟨h3, h4⟩ :=
        ih ((addNode ⟨inv, live⟩ id h v4 v6).1).inv ((addNode ⟨inv, live⟩ id h v4 v6).1).live h2
      refine ⟨?_, h4⟩
      show invIds (applyOps (addNode ⟨inv, live⟩ id h v4 v6).1 rest).inv = _
      rw [show applySetOps (invIds inv) (RpcOp.add id h v4 v6 :: rest) =
        applySetOps (setInsert (invIds inv) id) rest from rfl, ← h1]
      exact h3
    | remove id =>
      obtain ⟨h1, h2⟩ := removeNode_ids inv live id hu
      obtain ⟨h3, h4⟩ :=
        ih ((removeNode ⟨inv, live⟩ id).1).inv ((removeNode ⟨inv, live⟩ id).1).live h2
      refine ⟨?_, h4⟩
      show invIds (applyOps (removeNode ⟨inv, live⟩ id).1 rest).inv = _
      rw [show applySetOps (invIds inv) (RpcOp.remove id :: rest) =
        applySetOps (setErase (invIds inv) id) rest from rfl, ← h1]
      exact h3

/-- C5: starting from any all-`Unknown` inventory (in particular the empty
one), any finite sequence of `AddNode`/`RemoveNode` calls, duplicates
included, leaves the inventory membership equal to the idempotent
set-insert/set-delete fold in arrival order; `AddNode` always returns
success, and an `AddNode` for an existing id leaves the membership
unchanged. -/
theorem rpc_set_semantics (ops : List RpcOp) (live0 : List String)
    (inv0 : Inventory) (hu : allUnknown inv0) :
    invIds (applyOps ⟨inv0, live0⟩ ops).inv = applySetOps (invIds inv0) ops ∧
    (∀ (st : SysState) (id h v4 v6 : String), (addNode st id h v4 v6).2 = true) ∧
    (∀ (inv : Inventory) (id h v4 v6 : String), (lookupNode inv id).isSome = true →
      invIds (upsert inv id h v4 v6) = invIds inv) := by
  refine ⟨(applyOps_ids ops inv0 live0 hu).1, fun st id h v4 v6 => rfl, ?_⟩
  intro inv id h v4 v6 hs
  unfold upsert
  cases hl : lookupNode inv id with
  | none => rw [hl] at hs; cases hs
  | some n =>
    exact invIds_map inv _ fun n0 => by by_cases hid : n0.id = id <;> simp [hid]

/-- A demonstration call sequence with duplicate adds and removes. -/
def opsDemo : List RpcOp :=
  [RpcOp.add "A" "resolver-a" "100.64.0.10" "fd7a::10",
   RpcOp.add "A" "resolver-a" "100.64.0.10" "fd7a::10",
   RpcOp.add "B" "resolver-b" "100.64.0.11" "fd7a::11",
   RpcOp.remove "A",
   RpcOp.remove "A",
   RpcOp.add "A" "resolver-a" "100.64.0.10" "fd7a::10"]

/-- C5 witness: the demonstration sequence applied from the empty
inventory matches the set fold. -/
theorem rpc_set_semantics_witness :
    invIds (applyOps ⟨[], ["100.100.100.100"]⟩ opsDemo).inv = applySetOps [] opsDemo :=
  (rpc_set_semantics opsDemo ["100.100.100.100"] []
    (fun n hn => absurd hn (List.not_mem_nil n))).1

theorem markRemoved_noop_absent (inv : Inventory) (id : String)
    (h : lookupNode inv id = none) : markRemoved inv id = inv := by
  have h2 : ∀ n ∈ inv, ¬ n.id = id := by
    rw [lookupNode, List.find?_eq_none] at h
    intro n hn
    simpa using h n hn
  unfold markRemoved
  rw [List.map_congr_left fun n hn => if_neg (h2 n hn)]
  exact List.map_id inv

theorem markRemoved_noop_removed (inv : Inventory) (id : String)
    (h : ∀ n ∈ inv, n.id = id → n.status = Status.removed) :
    markRemoved inv id = inv := by
  unfold markRemoved
  rw [List.map_congr_left ?_]
  · exact List.map_id inv
  intro n hn
  by_cases hid : n.id = id
  · rw [if_pos hid]
    have hs := h n hn hid
    cases n
    simp_all
  · rw [if_neg hid]
    rfl

/-- A node of `markRemoved inv id` carrying the removed id is the marked
image of an inventory node with that id. -/
theorem markRemoved_id_node (inv : Inventory) (id : String) (n : Node)
    (hn : n ∈ markRemoved inv id) (hid : n.id = id) :
    ∃ n0 ∈ inv, n0.id = id ∧ n = { n0 with status := Status.removed } := by
  simp only [markRemoved, List.mem_map] at hn
  obtain ⟨n0, hn0, hf⟩ := hn
  by_cases h0 : n0.id = id
  · rw [if_pos h0] at hf
    exact ⟨n0, hn0, h0, hf.symm⟩
  · rw [if_neg h0] at hf
    rw [← hf] at hid
    exact absurd hid h0

/-- Under address exclusivity for the removed id, the address of a node
carrying that id does not appear in the desired set after marking. -/
theorem desired_marked_excluded (inv : Inventory) (id : String) (n0 : Node)
    (hn0 : n0 ∈ inv) (hid : n0.id = id)
    (hx : ∀ n ∈ inv, n.id = id → ∀ m ∈ inv, ¬ m.id = id → m.status = Status.healthy → m.ipv4 ≠ n.ipv4) :
    memb n0.ipv4 (desired (markRemoved inv id)) = false := by
  cases hmemb : memb n0.ipv4 (desired (markRemoved inv id)) with
  | false => rfl
  | true =>
    exfalso
    rw [memb_iff] at hmemb
    simp only [desired, List.mem_map, List.mem_filter] at hmemb
    obtain ⟨m, ⟨hm1, hm2⟩, hm3⟩ := hmemb
    simp only [markRemoved, List.mem_map] at hm1
    obtain ⟨m0, hm0, hmf⟩ := hm1
    by_cases hmid : m0.id = id
    · rw [if_pos hmid] at hmf
      rw [← hmf] at hm2
      simp at hm2
    · rw [if_neg hmid] at hmf
      rw [← hmf] at hm2 hm3
      exact hx n0 hn0 hid m0 hm0 hmid (by simpa using hm2) hm3

/-- The live set the `RemoveNode`-triggered reconciliation leaves behind
excludes the address of every node that carried the removed id. -/
theorem newLive_marked_excluded (inv : Inventory) (live : List String) (id : String)
    (n0 : Node) (hn0 : n0 ∈ inv) (hid : n0.id = id)
    (hx : ∀ n ∈ inv, n.id = id → ∀ m ∈ inv, ¬ m.id = id → m.status = Status.healthy → m.ipv4 ≠ n.ipv4) :
    memb n0.ipv4 (reconcile (markRemoved inv id) live).2.1 = false := by
  have hd := desired_marked_excluded inv id n0 hn0 hid hx
  rw [reconcile_live]
  by_cases hss : sameSet (desired (markRemoved inv id)) live = true
  · rw [if_pos hss]
    cases hml : memb n0.ipv4 live with
    | false => rfl
    | true =>
      have := sameSet_memb _ _ hss _ hml
      rw [this] at hd
      cases hd
  · rw [if_neg hss]
    exact hd

/-- After a `RemoveNode`, every node that carried the removed id is doomed
by the triggered reconciliation. -/
theorem marked_doomed (inv : Inventory) (live : List String) (id : String)
    (hx : ∀ n ∈ inv, n.id = id → ∀ m ∈ inv, ¬ m.id = id → m.status = Status.healthy → m.ipv4 ≠ n.ipv4) :
    ∀ n ∈ markRemoved inv id, n.id = id →
      (decide (n.status = Status.removed) &&
        !memb n.ipv4 (reconcile (markRemoved inv id) live).2.1) = true := by
  intro n hn hid
  obtain ⟨n0, hn0, hid0, rfl⟩ := markRemoved_id_node inv id n hn hid
  have hex := newLive_marked_excluded inv live id n0 hn0 hid0 hx
  simp only [show ({ n0 with status := Status.removed } : Node).ipv4 = n0.ipv4 from rfl]
  rw [hex]
  simp

/-- The purged ids of a reconciliation run, expressed through the run's
own live set. -/
theorem reconcile_purged (inv : Inventory) (live : List String) :
    (reconcile inv live).2.2.2 =
      (inv.filter fun n =>
        decide (n.status = Status.removed) &&
          !memb n.ipv4 (reconcile inv live).2.1).map (fun n => n.id) := rfl

/-- `markRemoved` keeps the id list. -/
theorem invIds_markRemoved (inv : Inventory) (id : String) :
    invIds (markRemoved inv id) = invIds inv :=
  invIds_map inv _ fun n => by by_cases hid : n.id = id <;> simp [hid]

/-- The first `RemoveNode` purges the removed id exactly once when it was
present, never when it was absent. -/
theorem removeNode_purged_count (inv : Inventory) (live : List String) (id : String)
    (hnd : (invIds inv).Nodup)
    (hx : ∀ n ∈ inv, n.id = id → ∀ m ∈ inv, ¬ m.id = id → m.status = Status.healthy → m.ipv4 ≠ n.ipv4) :
    ((removeNode ⟨inv, live⟩ id).2.2).count id =
      if memb id (invIds inv) then 1 else 0 := by
  have hstep :
      ((removeNode ⟨inv, live⟩ id).2.2).count id = (invIds inv).count id := by
    show ((reconcile (markRemoved inv id) live).2.2.2).count id = _
    rw [reconcile_purged]
    rw [List.count_eq_countP, List.countP_map, List.countP_filter]
    rw [List.countP_congr (q := fun n => n.id == id) ?_]
    · rw [show (fun (n : Node) => n.id == id) =
        ((fun x => x == id) ∘ fun (n : Node) => n.id) from rfl, ← List.countP_map]
      rw [← List.count_eq_countP]
      rw [show List.map (fun (n : Node) => n.id) (markRemoved inv id) =
        invIds (markRemoved inv id) from rfl, invIds_markRemoved]
    · intro n hn
      constructor
      · intro hb
        rw [Bool.and_eq_true] at hb
        exact hb.1
      · intro hb
        rw [Bool.and_eq_true]
        refine ⟨hb, ?_⟩
        have hid : n.id = id := by simpa using hb
        exact marked_doomed inv live id hx n hn hid
  rw [hstep]
  by_cases hm : memb id (invIds inv) = true
  · rw [if_pos hm]
    exact List.count_eq_one_of_mem hnd ((memb_iff _ _).mp hm)
  · rw [if_neg hm]
    refine List.count_eq_zero.mpr fun hmem => hm ((memb_iff _ _).mpr hmem)

/-- After a `RemoveNode`, the removed id is gone from the inventory. -/
theorem removeNode_id_gone (inv : Inventory) (live : List String) (id : String)
    (hx : ∀ n ∈ inv, n.id = id → ∀ m ∈ inv, ¬ m.id = id → m.status = Status.healthy → m.ipv4 ≠ n.ipv4) :
    ∀ n ∈ ((removeNode ⟨inv, live⟩ id).1).inv, ¬ n.id = id := by
  intro n hn hid
  have hn2 : n ∈ (reconcile (markRemoved inv id) live).1 := hn
  rw [reconcile_inv] at hn2
  rw [List.mem_filter] at hn2
  obtain ⟨hn3, hn4⟩ := hn2
  have hd := marked_doomed inv live id hx n hn3 hid
  rw [reconcile_live] at hd
  rw [hd] at hn4
  cases hn4

/-- The live set after `RemoveNode` matches the desired set of the
resulting inventory. -/
theorem removeNode_live_settled (inv : Inventory) (live : List String) (id : String) :
    sameSet (desired ((removeNode ⟨inv, live⟩ id).1).inv)
      (((removeNode ⟨inv, live⟩ id).1).live) = true := by
  show sameSet (desired (reconcile (markRemoved inv id) live).1)
    ((reconcile (markRemoved inv id) live).2.1) = true
  rw [desired_reconcile, reconcile_live]
  by_cases hss : sameSet (desired (markRemoved inv id)) live = true
  · rw [if_pos hss]
    exact hss
  · rw [if_neg hss]
    exact sameSet_refl _

/-- A second `RemoveNode` for the same id is a complete no-op: it returns
success, purges nothing, and leaves the system state unchanged. -/
theorem removeNode_second_noop (inv : Inventory) (live : List String) (id : String)
    (hx : ∀ n ∈ inv, n.id = id → ∀ m ∈ inv, ¬ m.id = id → m.status = Status.healthy → m.ipv4 ≠ n.ipv4) :
    removeNode (removeNode ⟨inv, live⟩ id).1 id =
      ((removeNode ⟨inv, live⟩ id).1, true, []) := by
  set st2 := (removeNode ⟨inv, live⟩ id).1 with hst2
  have hgone := removeNode_id_gone inv live id hx
  have hmark : markRemoved st2.inv id = st2.inv := by
    apply markRemoved_noop_absent
    rw [lookupNode, List.find?_eq_none]
    intro n hn
    simpa using hgone n hn
  have hsettled := removeNode_live_settled inv live id
  have hlive2 : (reconcile (markRemoved st2.inv id) st2.live).2.1 = st2.live := by
    rw [hmark, reconcile_live, if_pos hsettled]
  have hsurvive : ∀ n ∈ st2.inv,
      (decide (n.status = Status.removed) && !memb n.ipv4 st2.live) = false := by
    intro n hn
    have hn2 : n ∈ (reconcile (markRemoved inv id) live).1 := hn
    rw [reconcile_inv, List.mem_filter] at hn2
    have hlive1 : st2.live = (reconcile (markRemoved inv id) live).2.1 := rfl
    rw [hlive1, reconcile_live]
    have := hn2.2
    revert this
    cases decide (n.status = Status.removed) &&
      !memb n.ipv4 (if sameSet (desired (markRemoved inv id)) live then live
        else desired (markRemoved inv id)) <;> simp
  have hinv3 : (reconcile (markRemoved st2.inv id) st2.live).1 = st2.inv := by
    rw [hmark, reconcile_inv]
    rw [List.filter_eq_self.mpr]
    intro n hn
    have h2 := hsurvive n hn
    rw [reconcile_live, hmark] at *
    rw [show (if sameSet (desired st2.inv) st2.live then st2.live
      else desired st2.inv) = st2.live from if_pos hsettled]
    rw [h2]
    rfl
  have hpurged3 : (reconcile (markRemoved st2.inv id) st2.live).2.2.2 = [] := by
    rw [reconcile_purged, hlive2, hmark]
    rw [List.filter_eq_nil_iff.mpr]
    · rfl
    · intro n hn hcontra
      have h2 := hsurvive n hn
      rw [hcontra] at h2
      cases h2
  have hwrote3 : (reconcile (markRemoved st2.inv id) st2.live).2.2.1 = false := by
    rw [hmark, reconcile_wrote, hsettled]
    rfl
  show ({ inv := (reconcile (markRemoved st2.inv id) st2.live).1
          live := (reconcile (markRemoved st2.inv id) st2.live).2.1 }, true,
        (reconcile (markRemoved st2.inv id) st2.live).2.2.2) = (st2, true, [])
  rw [hinv3, hlive2, hpurged3]

/-- C6: `MarkRemoved` is idempotent — a non-existent id and an
already-removed id are both no-op successes — and for two consecutive
`RemoveNode` calls for the same id both calls return success while the id
is purged exactly once (when it was present at all), the second call
purging nothing and leaving the state unchanged.  The hypotheses reflect
the spec's inventory invariants: ids are unique, and no other healthy node
keeps the removed node's address alive, so that reconciliation can confirm
exclusion. -/
theorem markRemoved_remove_idempotent (st : SysState) (id : String)
    (hnd : (invIds st.inv).Nodup)
    (hx : ∀ n ∈ st.inv, n.id = id →
      ∀ m ∈ st.inv, ¬ m.id = id → m.status = Status.healthy → m.ipv4 ≠ n.ipv4) :
    (lookupNode st.inv id = none → markRemoved st.inv id = st.inv) ∧
    ((∀ n ∈ st.inv, n.id = id → n.status = Status.removed) →
      markRemoved st.inv id = st.inv) ∧
    (removeNode st id).2.1 = true ∧
    ((removeNode st id).2.2).count id = (if memb id (invIds st.inv) then 1 else 0) ∧
    removeNode (removeNode st id).1 id = ((removeNode st id).1, true, []) := by
  obtain ⟨inv, live⟩ := st
  exact ⟨markRemoved_noop_absent inv id,
    markRemoved_noop_removed inv id,
    rfl,
    removeNode_purged_count inv live id hnd hx,
    removeNode_second_noop inv live id hx⟩

/-- A concrete state for the C6 witness: node A healthy and alone, its
address live. -/
def stA : SysState :=
  { inv := [nodeA], live := ["100.64.0.10"] }

/-- C6 witness: the duplicate `RemoveNode` scenario at a concrete state —
the second call is a no-op success and A was purged exactly once. -/
theorem markRemoved_remove_idempotent_witness :
    removeNode (removeNode stA "A").1 "A" = ((removeNode stA "A").1, true, []) :=
  (markRemoved_remove_idempotent stA "A" (by decide)
    (by
      intro n hn hid m hm hmid hhm hiv
      have hm2 : m = nodeA := by simpa [stA] using hm
      subst hm2
      exact hmid (by decide))).2.2.2.2

end Skopos
